import Mathlib

/-!
Shallow embedding of the pyref-ccd core (src/enums.rs, src/lib.rs, src/loader.rs).

Rust `f64` scalars are modelled as real numbers; Rust machine-integer casts are
modelled with explicit modular arithmetic on `Int`/`Nat`.  A Rust computation
that can `panic!`/`unwrap` on `None` is modelled with `RustOutcome`; fallible
Rust code returning `Result` is modelled with `Except String`.  Polars
dataframes are modelled as ordered lists of named columns; `vstack_mut`
requires the two operands to expose the same column-name list (polars also
compares dtypes, which is immaterial for the properties below since all our
counterexamples differ already in the names).  The `astrors` header lookup
`Header::get_card` is modelled as exact keyword search, and `CardValue` is
collapsed to "readable as float" versus "not readable as float", which is all
`as_float` distinguishes.
-/

namespace PyrefCcd

/-- Outcome of a Rust computation that may panic (index out of bounds,
`Option::unwrap` on `None`, ...). -/
inductive RustOutcome (α : Type) where
  | ok (a : α)
  | panicked
deriving DecidableEq

/-- Value of a FITS header card, as far as `CardValue::as_float` can see it:
either a float-readable value or something else. -/
inductive CardValue where
  | float (x : ℝ)
  | other (s : String)

/-- `CardValue::as_float` of astrors: `some` exactly on float-readable values. -/
def CardValue.asFloat : CardValue → Option ℝ
  | .float x => some x
  | .other _ => none

/-- One header card: keyword plus value (astrors `card::Card`). -/
structure Card where
  keyword : String
  value : CardValue

/-- Typed image payload of an HDU (astrors `ImageData`), by element type.
The source images are 2-D; rows are listed outermost, row-major. -/
inductive ImageData where
  | U8 (rows : List (List ℕ))
  | I16 (rows : List (List Int))
  | I32 (rows : List (List Int))
  | F32 (rows : List (List ℝ))
  | F64 (rows : List (List ℝ))

/-- One HDU of a FITS file: primary (with its header), image, or any other
HDU kind (table, bintable, ...). -/
inductive HDU where
  | primary (header : List Card)
  | image (data : ImageData)
  | other

/-- A loaded FITS file is its HDU list (`FitsLoader.hdul.hdus`). -/
abbrev Fits := List HDU

/-- A polars value as it occurs in this pipeline: a float scalar or a
list-of-unsigned cell (the "Raw" / "Raw Shape" columns). -/
inductive RVal where
  | num (x : ℝ)
  | nlist (l : List ℕ)

/-- A polars `Series`: a named column. -/
structure Series where
  name : String
  values : List RVal

/-- A polars `DataFrame`: ordered named columns. -/
structure DataFrame where
  cols : List Series

/-- `DataFrame::height`: length of the first column, 0 for no columns. -/
def DataFrame.height : DataFrame → ℕ
  | ⟨[]⟩ => 0
  | ⟨c :: _⟩ => c.values.length

/-- True when no column name repeats (polars `DataFrame::new` rejects
duplicate names). -/
def noDupNames : List String → Bool
  | [] => true
  | n :: ns => (!ns.contains n) && noDupNames ns

/-- True when all columns have the height of the first one (polars
`DataFrame::new` rejects length mismatches). -/
def sameLen : List Series → Bool
  | [] => true
  | c :: cs => cs.all fun t => t.values.length == c.values.length

/-- `DataFrame::new`: succeeds on distinct names and equal column lengths. -/
def DataFrame.new (s : List Series) : Except String DataFrame :=
  if noDupNames (s.map Series.name) && sameLen s then .ok ⟨s⟩
  else .error "could not create DataFrame"

/-- `DataFrame::vstack_mut`: row-wise concatenation, which polars accepts only
when the column schemas (here: the name lists) coincide. -/
def vstack (a b : DataFrame) : Except String DataFrame :=
  if a.cols.map Series.name = b.cols.map Series.name then
    .ok ⟨List.zipWith (fun x y => Series.mk x.name (x.values ++ y.values)) a.cols b.cols⟩
  else .error "vstack: column name mismatch"

/-- Physical constant `physical_constants::MOLAR_PLANCK_CONSTANT` (CODATA:
molar Planck constant, h times the Avogadro constant, in J Hz^-1 mol^-1).
The f64 literal of the crate is modelled by the corresponding exact decimal;
its 2^-52 relative rounding is immaterial to every bound proved below. -/
noncomputable def MOLAR_PLANCK_CONSTANT : ℝ := 3.990312712e-10

/-- Physical constant `physical_constants::SPEED_OF_LIGHT_IN_VACUUM` (m/s). -/
noncomputable def SPEED_OF_LIGHT_IN_VACUUM : ℝ := 299792458

/-- The Planck constant h in J s (CODATA), the constant named by the spec's
Q formula.  The source instead uses `MOLAR_PLANCK_CONSTANT`. -/
noncomputable def PLANCK_CONSTANT : ℝ := 6.62607015e-34

/-- Rust `f64::to_radians`: multiply by pi over 180. -/
noncomputable def toRadians (x : ℝ) : ℝ := x * (Real.pi / 180)

/-- The Q value computed by `FitsLoader::get_value("Q")` from the sample theta
(degrees) and beamline energy found in the header: lambda is
`1e10 * MOLAR_PLANCK_CONSTANT * SPEED_OF_LIGHT_IN_VACUUM / en`, and
Q is `4 * pi * (sin(theta.to_radians()) / lambda)`. -/
noncomputable def qFromThetaEnergy (θ en : ℝ) : ℝ :=
  4 * Real.pi *
    (Real.sin (toRadians θ) /
      (1e10 * MOLAR_PLANCK_CONSTANT * SPEED_OF_LIGHT_IN_VACUUM / en))

/-- The Q formula exactly as the specification states it (its §4.3), with h
the Planck constant: `Q = 4 pi sin(theta_rad) / lambda`,
`lambda = 1e10 * h * c / E`.  Declared only to compare the source's
`qFromThetaEnergy` against the spec's words. -/
noncomputable def qSpecFormula (θ en : ℝ) : ℝ :=
  4 * Real.pi * Real.sin (toRadians θ) /
    (1e10 * PLANCK_CONSTANT * SPEED_OF_LIGHT_IN_VACUUM / en)

/-- `FitsLoader::get_card`: reads the primary HDU (index 0, a panic when the
HDU list is empty) and looks the keyword up in its header. -/
def get_card (hdul : Fits) (name : String) : RustOutcome (Option Card) :=
  match hdul[0]? with
  | none => .panicked
  | some (HDU.primary h) => .ok (h.find? fun c => c.keyword == name)
  | some _ => .ok none

/-- The non-"Q" branch of `FitsLoader::get_value`: look the card up in the
primary header and `as_float().unwrap()` its value (a panic on a card whose
value is not float-readable). -/
def getValueRaw (hdul : Fits) (name : String) : RustOutcome (Option ℝ) :=
  match hdul[0]? with
  | none => .panicked
  | some (HDU.primary h) =>
    match h.find? (fun c => c.keyword == name) with
    | none => .ok none
    | some c =>
      match c.value.asFloat with
      | some x => .ok (some x)
      | none => .panicked
  | some _ => .ok none

/-- `FitsLoader::get_value`.  For `"Q"` it reads "Sample Theta" and
"Beamline Energy" (the recursive calls hit the general branch since neither
name is `"Q"`), unwraps both (`en.unwrap()` first, as in the source), and
computes `qFromThetaEnergy`; for any other name it is the general branch. -/
noncomputable def getValue (hdul : Fits) (name : String) : RustOutcome (Option ℝ) :=
  if name = "Q" then
    match getValueRaw hdul "Sample Theta" with
    | .panicked => .panicked
    | .ok th =>
      match getValueRaw hdul "Beamline Energy" with
      | .panicked => .panicked
      | .ok en =>
        match en with
        | none => .panicked
        | some e =>
          match th with
          | none => .panicked
          | some t => .ok (some (qFromThetaEnergy t e))
  else getValueRaw hdul name

/-- `FitsLoader::get_all_cards`: all cards of the primary HDU (index 0, a
panic when the HDU list is empty), `[]` when HDU 0 is not primary. -/
def get_all_cards (hdul : Fits) : RustOutcome (List Card) :=
  match hdul[0]? with
  | none => .panicked
  | some (HDU.primary h) => .ok h
  | some _ => .ok []

/-- Rust `x as u16` on an `i16` value: reduce modulo 2^16 (two's complement
reinterpretation), then `u32::from` preserves the value. -/
def i16AsU16 (x : Int) : ℕ := (x % 65536).toNat

/-- `FitsLoader::get_data`: only the `I16` payload is accepted; its values are
flattened row-major through `x as u16` into `u32`s, paired with the 2-D shape.
Every other element type is the "Unsupported image data type" error. -/
def get_data : ImageData → Except String (List ℕ × List ℕ)
  | .I16 rows => .ok (rows.flatten.map i16AsU16, [rows.length, (rows.headD []).length])
  | _ => .error "Unsupported image data type"

/-- `FitsLoader::get_image`: index the HDU list at position 2 (a panic when
fewer than three HDUs exist), decode when it is an image HDU, and otherwise
return the "Image HDU not found" error.  No other position is tried. -/
def get_image (hdul : Fits) : RustOutcome (Except String (List ℕ × List ℕ)) :=
  match hdul[2]? with
  | none => .panicked
  | some (HDU.image d) => .ok (get_data d)
  | some _ => .ok (.error "Image HDU not found")

/-- `vec_series`: wrap an image vector as the single cell of a list column. -/
def vec_series (name : String) (img : List ℕ) : Series :=
  ⟨name, [RVal.nlist img]⟩

/-- The `keys.is_empty()` branch of `FitsLoader::to_polars`: one column per
header card, valued `card.value.as_float().unwrap_or(0.0)`. -/
def allCardSeries (hdul : Fits) : RustOutcome (List Series) :=
  match get_all_cards hdul with
  | .panicked => .panicked
  | .ok cards => .ok (cards.map fun c => ⟨c.keyword, [RVal.num (c.value.asFloat.getD 0)]⟩)

/-- The non-empty-keys branch of `FitsLoader::to_polars`:
`keys.iter().filter_map(|key| get_value(key).map(...))` — a key whose value is
absent is silently skipped, and a panic inside `get_value` propagates. -/
noncomputable def keySeries (hdul : Fits) : List String → RustOutcome (List Series)
  | [] => .ok []
  | k :: ks =>
    match getValue hdul k with
    | .panicked => .panicked
    | .ok none => keySeries hdul ks
    | .ok (some v) =>
      match keySeries hdul ks with
      | .panicked => .panicked
      | .ok ss => .ok (⟨k, [RVal.num v]⟩ :: ss)

/-- `FitsLoader::to_polars`: build the key columns, decode the image (its
error is returned), append the "Raw", "Raw Shape" and unwrapped "Q [A^-1]"
columns, and construct the dataframe. -/
noncomputable def FitsLoader.to_polars (hdul : Fits) (keys : List String) :
    RustOutcome (Except String DataFrame) :=
  match (if keys.isEmpty then allCardSeries hdul else keySeries hdul keys) with
  | .panicked => .panicked
  | .ok sv =>
    match get_image hdul with
    | .panicked => .panicked
    | .ok (.error e) => .ok (.error e)
    | .ok (.ok (img, size)) =>
      match getValue hdul "Q" with
      | .panicked => .panicked
      | .ok none => .panicked
      | .ok (some q) =>
        .ok (DataFrame.new
          (sv ++ [vec_series "Raw" img, vec_series "Raw Shape" size,
                  ⟨"Q [A^-1]", [RVal.num q]⟩]))

/-- Column names of a successful `to_polars` result, `none` otherwise. -/
def resultNames : RustOutcome (Except String DataFrame) → Option (List String)
  | .ok (.ok df) => some (df.cols.map Series.name)
  | _ => none

/-- The experiment type of loader.rs (there also a second copy lives in
enums.rs, embedded below in the `Enums` namespace). -/
inductive ExperimentType where
  | Xrr
  | Xrs
  | Other

/-- `ExperimentType::get_keys` of loader.rs. -/
def ExperimentType.get_keys : ExperimentType → List String
  | .Xrr => ["Sample Theta", "Beamline Energy", "EPU Polarization",
             "Horizontal Exit Slit Size", "Higher Order Suppressor", "EXPOSURE"]
  | .Xrs => ["Energy"]
  | .Other => []

/-- One directory entry as `ExperimentLoader::new` and `simple_update` see it:
its extension and the outcome `FitsLoader::new` would produce for it. -/
structure DirEntry where
  ext : Option String
  decode : Except String Fits

/-- The `.fits`-extension filter applied to a directory listing. -/
def fitsEntries (entries : List DirEntry) : List DirEntry :=
  entries.filter fun e => e.ext == some "fits"

/-- `collect::<Result<Vec<_>, _>>()`: all values, or the first error. -/
def collectE {α : Type} : List (Except String α) → Except String (List α)
  | [] => .ok []
  | x :: xs =>
    match x with
    | .error e => .error e
    | .ok a =>
      match collectE xs with
      | .error e => .error e
      | .ok as_ => .ok (a :: as_)

/-- `ExperimentLoader::new`: filter the directory for `.fits` entries, decode
each, and collect into a `Result` — the whole construction fails on the first
file whose decode fails. -/
def ExperimentLoader.new (entries : List DirEntry) : Except String (List Fits) :=
  collectE ((fitsEntries entries).map DirEntry.decode)

/-- Collect the per-file `to_polars` results as rayon's
`collect::<Result<Vec<_>, _>>()` does, a panic propagating. -/
noncomputable def collectPE : List (RustOutcome (Except String DataFrame)) →
    RustOutcome (Except String (List DataFrame))
  | [] => .ok (.ok [])
  | x :: xs =>
    match x with
    | .panicked => .panicked
    | .ok (.error e) => .ok (.error e)
    | .ok (.ok df) =>
      match collectPE xs with
      | .panicked => .panicked
      | .ok (.error e) => .ok (.error e)
      | .ok (.ok dfs) => .ok (.ok (df :: dfs))

/-- The reduction loop of `ExperimentLoader::to_polars`: starting from the
popped dataframe, `vstack_mut` each remaining one in order. -/
def foldVstack (df : DataFrame) : List DataFrame → Except String DataFrame
  | [] => .ok df
  | d :: ds =>
    match vstack df d with
    | .error e => .error e
    | .ok df2 => foldVstack df2 ds

/-- `ExperimentLoader::to_polars`: convert every loaded file with the
experiment type's keys, `pop()` the last dataframe ("No data found" when there
is none) and `vstack_mut` all the others onto it. -/
noncomputable def ExperimentLoader.to_polars (files : List Fits) (et : ExperimentType) :
    RustOutcome (Except String DataFrame) :=
  match collectPE (files.map fun f => FitsLoader.to_polars f et.get_keys) with
  | .panicked => .panicked
  | .ok (.error e) => .ok (.error e)
  | .ok (.ok dfs) =>
    match dfs.getLast? with
    | none => .ok (.error "No data found")
    | some last => .ok (foldVstack last dfs.dropLast)

/-- `simple_update`: compare the directory's `.fits` count with the frame's
height; equal means nothing to do, fewer files is the out-of-sync error, and
otherwise the first `count - height` entries are decoded, converted with the
`Xrr` keys and stacked onto the frame.  The returned dataframe is the final
state of the `&mut DataFrame` argument. -/
noncomputable def simple_update (df : DataFrame) (entries : List DirEntry) :
    RustOutcome (Except String Unit × DataFrame) :=
  if (fitsEntries entries).length = df.height then .ok (.ok (), df)
  else if (fitsEntries entries).length < df.height then
    .ok (.error "Files out of sync with loaded data, Restart", df)
  else
    match collectE (((fitsEntries entries).take
        ((fitsEntries entries).length - df.height)).map DirEntry.decode) with
    | .error e => .ok (.error e, df)
    | .ok files =>
      match ExperimentLoader.to_polars files .Xrr with
      | .panicked => .panicked
      | .ok (.error e) => .ok (.error e, df)
      | .ok (.ok ndf) =>
        match vstack df ndf with
        | .error e => .ok (.error e, df)
        | .ok big => .ok (.ok (), big)

namespace Enums

/-- The error type of enums.rs (`crate::errors::FitsLoaderError`), restricted
to the variant enums.rs constructs. -/
inductive FitsLoaderError where
  | InvalidExperimentType (s : String)
deriving DecidableEq

/-- The experiment type of enums.rs. -/
inductive ExperimentType where
  | Xrr
  | Xrs
  | Other
deriving DecidableEq

/-- The header-value identifiers of enums.rs. -/
inductive HeaderValue where
  | SampleTheta
  | CCDTheta
  | BeamlineEnergy
  | EPUPolarization
  | BeamCurrent
  | HorizontalExitSlitSize
  | HigherOrderSuppressor
  | Exposure
deriving DecidableEq

/-- Rust `str::to_lowercase`, restricted to its ASCII action (lowercase each
character).  Rust's Unicode case mapping and this ASCII one agree on every
string the `from_str` match can accept — no character outside A-Z lowercases
to a letter of "xrr"/"xrs"/"other". -/
def toLowercase (s : String) : String := ⟨s.data.map Char.toLower⟩

/-- `ExperimentType::from_str` of enums.rs: match on the lowercased string;
anything unrecognized is `InvalidExperimentType` carrying the input. -/
def ExperimentType.from_str (s : String) : Except FitsLoaderError ExperimentType :=
  if toLowercase s = "xrr" then .ok .Xrr
  else if toLowercase s = "xrs" then .ok .Xrs
  else if toLowercase s = "other" then .ok .Other
  else .error (.InvalidExperimentType s)

/-- `ExperimentType::get_keys` of enums.rs. -/
def ExperimentType.get_keys : ExperimentType → List HeaderValue
  | .Xrr => [.SampleTheta, .CCDTheta, .BeamlineEnergy, .BeamCurrent,
             .EPUPolarization, .HorizontalExitSlitSize, .HigherOrderSuppressor,
             .Exposure]
  | .Xrs => [.BeamlineEnergy]
  | .Other => []

end Enums

-- Helper lemmas ----------------------------------------------------------

/-- Mapping the names over a `vstack` zip returns the left name list when the
lengths agree. -/
theorem zipWith_stack_names : ∀ (as_ bs : List Series), as_.length = bs.length →
    (List.zipWith (fun x y => Series.mk x.name (x.values ++ y.values)) as_ bs).map
      Series.name = as_.map Series.name := by
  intro as_
  induction as_ with
  | nil => intro bs _; simp
  | cons a t ih =>
    intro bs h
    cases bs with
    | nil => simp at h
    | cons b bt =>
      simp [List.zipWith_cons_cons, ih bt (by simpa using h)]

/-- `collectE` succeeds, with one output per input, when every input is ok. -/
theorem collectE_ok {α : Type} : ∀ l : List (Except String α),
    (∀ x ∈ l, ∃ a, x = .ok a) →
    ∃ as_, collectE l = .ok as_ ∧ as_.length = l.length := by
  intro l
  induction l with
  | nil => intro _; exact ⟨[], rfl, rfl⟩
  | cons x xs ih =>
    intro h
    obtain ⟨a, ha⟩ := h x (List.mem_cons_self x xs)
    obtain ⟨as_, has, hlen⟩ := ih fun y hy => h y (List.mem_cons_of_mem x hy)
    subst ha
    refine ⟨a :: as_, ?_, by simp [hlen]⟩
    simp only [collectE, has]

/-- `collectE` fails as soon as some input is an error. -/
theorem collectE_err {α : Type} : ∀ l : List (Except String α),
    (∃ x ∈ l, ∀ a, x ≠ .ok a) →
    ∃ e, collectE l = .error e := by
  intro l
  induction l with
  | nil => rintro ⟨x, hx, -⟩; cases hx
  | cons x xs ih =>
    rintro ⟨y, hy, hne⟩
    cases hy with
    | head =>
      cases x with
      | error e => exact ⟨e, rfl⟩
      | ok a => exact absurd rfl (hne a)
    | tail _ hmem =>
      cases x with
      | error e => exact ⟨e, rfl⟩
      | ok a =>
        obtain ⟨e, he⟩ := ih ⟨y, hmem, hne⟩
        exact ⟨e, by simp only [collectE, he]⟩

-- C7 ---------------------------------------------------------------------

/-- C7: `ExperimentType::from_str` is case-insensitive — any string whose
lowercasing is "xrr" / "xrs" / "other" parses to the same variant as the
lowercase form — every other string is the `InvalidExperimentType` hard
error, and the `Other` variant resolves to an empty key list. -/
theorem claim_C7 (s : String) :
    (Enums.toLowercase s = "xrr" → Enums.ExperimentType.from_str s = .ok .Xrr) ∧
    (Enums.toLowercase s = "xrs" → Enums.ExperimentType.from_str s = .ok .Xrs) ∧
    (Enums.toLowercase s = "other" → Enums.ExperimentType.from_str s = .ok .Other) ∧
    (Enums.toLowercase s ≠ "xrr" → Enums.toLowercase s ≠ "xrs" → Enums.toLowercase s ≠ "other" →
      Enums.ExperimentType.from_str s = .error (.InvalidExperimentType s)) ∧
    Enums.ExperimentType.get_keys .Other = [] := by
  refine ⟨?_, ?_, ?_, ?_, rfl⟩
  · intro h; unfold Enums.ExperimentType.from_str; rw [h]; simp
  · intro h; unfold Enums.ExperimentType.from_str; rw [h]; simp
  · intro h; unfold Enums.ExperimentType.from_str; rw [h]; simp
  · intro h1 h2 h3
    unfold Enums.ExperimentType.from_str
    rw [if_neg h1, if_neg h2, if_neg h3]

/-- Witness for C7 at concrete inputs: a mixed-capitalization "XrR" parses to
`Xrr`, "bad" is rejected, and `Other` has no keys. -/
theorem claim_C7_witness :
    Enums.ExperimentType.from_str "XrR" = .ok .Xrr ∧
    Enums.ExperimentType.from_str "bad" =
      .error (.InvalidExperimentType "bad") ∧
    Enums.ExperimentType.get_keys .Other = [] :=
  ⟨(claim_C7 "XrR").1 (by decide),
   (claim_C7 "bad").2.2.2.1 (by decide) (by decide) (by decide),
   (claim_C7 "bad").2.2.2.2⟩

-- C5 ---------------------------------------------------------------------

/-- C5 counterexample: an HDU list carrying image HDUs at positions 0 and 1
but a non-image HDU at position 2.  The claim says retrieval falls back from
the canonical position to the next candidate and fails only when no candidate
holds an image; whatever pair of candidate positions is meant, some candidate
here holds an image, yet `get_image` returns the "Image HDU not found" error
because it only ever inspects index 2. -/
theorem claim_C5_counterexample :
    get_image [HDU.image (ImageData.I16 [[1]]), HDU.image (ImageData.I16 [[1]]),
               HDU.primary []] = .ok (.error "Image HDU not found") ∧
    (∃ d, [HDU.image (ImageData.I16 [[1]]), HDU.image (ImageData.I16 [[1]]),
           HDU.primary []][0]? = some (HDU.image d)) ∧
    (∃ d, [HDU.image (ImageData.I16 [[1]]), HDU.image (ImageData.I16 [[1]]),
           HDU.primary []][1]? = some (HDU.image d)) :=
  ⟨rfl, ⟨ImageData.I16 [[1]], rfl⟩, ⟨ImageData.I16 [[1]], rfl⟩⟩

/-- C5 as amended: `FitsLoader::get_image` inspects only HDU index 2 — an
image there is decoded via `get_data`, any other HDU kind there yields the
"Image HDU not found" error with no fallback to another position, and fewer
than three HDUs is an out-of-bounds panic, not an error. -/
theorem claim_C5_amended (hdul : Fits) :
    (hdul[2]? = none → get_image hdul = .panicked) ∧
    (∀ d, hdul[2]? = some (HDU.image d) → get_image hdul = .ok (get_data d)) ∧
    (∀ h, hdul[2]? = some h → (∀ d, h ≠ HDU.image d) →
      get_image hdul = .ok (.error "Image HDU not found")) := by
  refine ⟨?_, ?_, ?_⟩
  · intro h; unfold get_image; rw [h]
  · intro d h; unfold get_image; rw [h]
  · intro h hmem hne
    unfold get_image
    rw [hmem]
    cases h with
    | primary cards => rfl
    | image d => exact absurd rfl (hne d)
    | other => rfl

/-- Witness for C5 as amended, at concrete inputs: the empty HDU list panics,
and a 3-HDU list with an image at index 2 decodes it. -/
theorem claim_C5_witness :
    get_image [] = .panicked ∧
    get_image [HDU.primary [], HDU.other, HDU.image (ImageData.I16 [[7]])] =
      .ok (get_data (ImageData.I16 [[7]])) :=
  ⟨(claim_C5_amended []).1 rfl,
   (claim_C5_amended [HDU.primary [], HDU.other,
      HDU.image (ImageData.I16 [[7]])]).2.1 (ImageData.I16 [[7]]) rfl⟩

-- C6 ---------------------------------------------------------------------

/-- C6 counterexample: decoding is not a lossless upcast over the five listed
element types.  A 32-bit float image is rejected with the unsupported-type
error (so the claimed 16-bit/32-bit-float round trip cannot even run), and the
one supported type, 16-bit integers, is reinterpreted through `as u16`, so the
value -1 decodes to 65535 rather than being preserved. -/
theorem claim_C6_counterexample :
    get_data (ImageData.F32 [[0]]) = .error "Unsupported image data type" ∧
    get_data (ImageData.I16 [[-1]]) = .ok ([65535], [1, 1]) :=
  ⟨rfl, rfl⟩

/-- C6 as amended: `FitsLoader::get_data` supports only the 16-bit-integer
payload, flattening it row-major through the `x as u16` reinterpretation into
`u32` values — values in [0, 2^16) are preserved, negative values x become
x + 2^16 — and every other element type (8-bit, 32-bit integer, 32- and
64-bit float) fails with the "Unsupported image data type" error. -/
theorem claim_C6_amended (d : ImageData) :
    (∀ rows, d = ImageData.I16 rows →
      get_data d = .ok (rows.flatten.map i16AsU16,
        [rows.length, (rows.headD []).length])) ∧
    ((∀ rows, d ≠ ImageData.I16 rows) →
      get_data d = .error "Unsupported image data type") ∧
    (∀ x : Int, 0 ≤ x → x < 65536 → (i16AsU16 x : Int) = x) ∧
    (∀ x : Int, -65536 ≤ x → x < 0 → (i16AsU16 x : Int) = x + 65536) := by
  refine ⟨?_, ?_, ?_, ?_⟩
  · intro rows h; subst h; rfl
  · intro hne
    cases d with
    | U8 rows => rfl
    | I16 rows => exact absurd rfl (hne rows)
    | I32 rows => rfl
    | F32 rows => rfl
    | F64 rows => rfl
  · intro x h0 h1; unfold i16AsU16; omega
  · intro x h0 h1; unfold i16AsU16; omega

/-- Witness for C6 as amended, at concrete inputs: a 64-bit-float image is
rejected, an in-range value is preserved, and -2 maps to 65534. -/
theorem claim_C6_witness :
    get_data (ImageData.F64 [[0]]) = .error "Unsupported image data type" ∧
    (i16AsU16 37 : Int) = 37 ∧ (i16AsU16 (-2) : Int) = -2 + 65536 :=
  ⟨(claim_C6_amended (ImageData.F64 [[0]])).2.1 (fun rows h => by cases h),
   (claim_C6_amended (ImageData.F64 [[0]])).2.2.1 37 (by decide) (by decide),
   (claim_C6_amended (ImageData.F64 [[0]])).2.2.2 (-2) (by decide) (by decide)⟩

-- C1 ---------------------------------------------------------------------

/-- C1 counterexample: merging two single-row tables whose column sets differ
(column "x" versus column "y").  The claim says the merge yields a table whose
column set is the union {"x", "y"} with explicit nulls for the missing side;
instead `vstack_mut` refuses the mismatched schemas and the merge returns an
error — no union, no null padding, no result table at all. -/
theorem claim_C1_counterexample :
    vstack ⟨[Series.mk "x" [RVal.num 1]]⟩ ⟨[Series.mk "y" [RVal.num 2]]⟩ =
      .error "vstack: column name mismatch" := by
  rfl

/-- C1 as amended: the merge used by `ExperimentLoader::to_polars` is
`vstack_mut`, which succeeds exactly on identical column-name lists — then the
result keeps that column list and every row of both operands (the heights
add, so no row is dropped) — and returns an error, with no null padding and
no column union, whenever the column sets differ. -/
theorem claim_C1_amended (a b : DataFrame) :
    (a.cols.map Series.name = b.cols.map Series.name →
      ∃ c, vstack a b = .ok c ∧ c.cols.map Series.name = a.cols.map Series.name ∧
        c.height = a.height + b.height) ∧
    (a.cols.map Series.name ≠ b.cols.map Series.name →
      vstack a b = .error "vstack: column name mismatch") := by
  constructor
  · intro h
    have hlen : a.cols.length = b.cols.length := by
      have := congrArg List.length h
      simpa using this
    refine ⟨⟨List.zipWith (fun x y => Series.mk x.name (x.values ++ y.values))
      a.cols b.cols⟩, ?_, ?_, ?_⟩
    · unfold vstack; rw [if_pos h]
    · exact zipWith_stack_names a.cols b.cols hlen
    · rcases a with ⟨acols⟩
      rcases b with ⟨bcols⟩
      cases acols with
      | nil =>
        cases bcols with
        | nil => rfl
        | cons y ys => simp at hlen
      | cons x xs =>
        cases bcols with
        | nil => simp at hlen
        | cons y ys => simp [DataFrame.height, List.zipWith_cons_cons]
  · intro h
    unfold vstack
    rw [if_neg h]

/-- Witness for C1 as amended, at concrete inputs: stacking two single-row
tables over the same single column "x" gives a two-row table. -/
theorem claim_C1_witness :
    ∃ c, vstack ⟨[Series.mk "x" [RVal.num 1]]⟩ ⟨[Series.mk "x" [RVal.num 2]]⟩ =
        .ok c ∧
      c.cols.map Series.name =
        (DataFrame.mk [Series.mk "x" [RVal.num 1]]).cols.map Series.name ∧
      c.height = (DataFrame.mk [Series.mk "x" [RVal.num 1]]).height +
        (DataFrame.mk [Series.mk "x" [RVal.num 2]]).height :=
  (claim_C1_amended ⟨[Series.mk "x" [RVal.num 1]]⟩
    ⟨[Series.mk "x" [RVal.num 2]]⟩).1 rfl

-- C2 ---------------------------------------------------------------------

/-- C2 counterexample: a batch of N = 2 candidate files of which exactly
K = 1 fails decoding.  The claim says ingestion returns a 1-row table plus a
1-element failure list; instead `ExperimentLoader::new` collects the decode
results into a single `Result`, so the whole batch aborts with the lone
file's error and no table or failure list exists. -/
theorem claim_C2_counterexample :
    ExperimentLoader.new
      [⟨some "fits", .ok [HDU.primary []]⟩, ⟨some "fits", .error "decode failed"⟩] =
      .error "decode failed" := by
  rfl

/-- C2 as amended: ingestion aborts on the first decode failure.
`ExperimentLoader::new` returns an error whenever at least one `.fits`
candidate fails to decode — no partial result and no failure list are
produced — and returns one loaded file per candidate exactly when every
candidate decodes. -/
theorem claim_C2_amended (entries : List DirEntry) :
    ((∀ x ∈ fitsEntries entries, ∃ f, x.decode = .ok f) →
      ∃ ls, ExperimentLoader.new entries = .ok ls ∧
        ls.length = (fitsEntries entries).length) ∧
    ((∃ x ∈ fitsEntries entries, ∀ f, x.decode ≠ .ok f) →
      ∃ e, ExperimentLoader.new entries = .error e) := by
  constructor
  · intro h
    obtain ⟨ls, hls, hlen⟩ := collectE_ok ((fitsEntries entries).map DirEntry.decode)
      (by
        intro x hx
        obtain ⟨y, hy, rfl⟩ := List.mem_map.mp hx
        exact h y hy)
    exact ⟨ls, hls, by simpa using hlen⟩
  · rintro ⟨x, hx, hne⟩
    exact collectE_err ((fitsEntries entries).map DirEntry.decode)
      ⟨x.decode, List.mem_map_of_mem DirEntry.decode hx, hne⟩

/-- Witness for C2 as amended, at a concrete input: with a single `.fits`
entry that decodes, `new` returns exactly one loaded file. -/
theorem claim_C2_witness :
    ∃ ls, ExperimentLoader.new [⟨some "fits", .ok [HDU.primary []]⟩] = .ok ls ∧
      ls.length = (fitsEntries [⟨some "fits", .ok [HDU.primary []]⟩]).length :=
  (claim_C2_amended [⟨some "fits", .ok [HDU.primary []]⟩]).1
    (by
      intro x hx
      have hx' : x = ⟨some "fits", .ok [HDU.primary []]⟩ := by
        simpa [fitsEntries] using hx
      exact ⟨[HDU.primary []], by rw [hx']⟩)

-- C3 ---------------------------------------------------------------------

/-- C3 counterexample: a file whose header has "Sample Theta" and
"Beamline Energy" but no "Energy" card, converted with the requested field
list ["Energy", "Sample Theta", "Beamline Energy"].  The claim says the
missing field must yield a `MissingHeaderField` error naming "Energy";
instead `to_polars` succeeds and the "Energy" column is silently absent from
the result (the remaining columns are the two present fields plus the image,
shape and Q columns). -/
theorem claim_C3_counterexample :
    resultNames (FitsLoader.to_polars
      [HDU.primary [⟨"Sample Theta", CardValue.float 1⟩,
                    ⟨"Beamline Energy", CardValue.float 500⟩],
       HDU.other, HDU.image (ImageData.I16 [[3]])]
      ["Energy", "Sample Theta", "Beamline Energy"]) =
      some ["Sample Theta", "Beamline Energy", "Raw", "Raw Shape", "Q [A^-1]"] := by
  rfl

/-- C3 as amended: a requested header field absent from the file's header is
silently omitted — the `filter_map` in `FitsLoader::to_polars` drops the
`None` lookup, so whenever the key-column construction succeeds, no column
carries the missing key's name, and no error mentioning the field exists. -/
theorem claim_C3_amended (hdul : Fits) (k : String) :
    ∀ (ks : List String) (ss : List Series),
      getValue hdul k = .ok none → keySeries hdul ks = .ok ss →
      k ∉ ss.map Series.name := by
  intro ks
  induction ks with
  | nil =>
    intro ss _ hs
    simp only [keySeries] at hs
    injection hs with h
    subst h
    simp
  | cons a ks ih =>
    intro ss hk hs
    simp only [keySeries] at hs
    cases hv : getValue hdul a with
    | panicked => rw [hv] at hs; cases hs
    | ok o =>
      rw [hv] at hs
      cases o with
      | none => exact ih ss hk hs
      | some v =>
        cases hr : keySeries hdul ks with
        | panicked => rw [hr] at hs; cases hs
        | ok ss2 =>
          rw [hr] at hs
          injection hs with h
          subst h
          simp only [List.map_cons, List.mem_cons, not_or]
          constructor
          · intro hak
            rw [hak] at hk
            rw [hv] at hk
            cases hk
          · exact ih ss2 hk hr

/-- Witness for C3 as amended, at concrete inputs: requesting the absent
"Energy" together with the present "Sample Theta" produces only the
"Sample Theta" column. -/
theorem claim_C3_witness :
    "Energy" ∉ ([Series.mk "Sample Theta" [RVal.num 1]].map Series.name) :=
  claim_C3_amended
    [HDU.primary [⟨"Sample Theta", CardValue.float 1⟩], HDU.other,
     HDU.image (ImageData.I16 [[3]])]
    "Energy" ["Energy", "Sample Theta"]
    [Series.mk "Sample Theta" [RVal.num 1]] rfl rfl

-- C8 ---------------------------------------------------------------------

/-- C8: on a file whose primary header lacks the "Sample Theta" card or the
"Beamline Energy" card (the lookup returns `None`), `get_value("Q")` panics
on the `unwrap`, and `to_polars` — which unconditionally appends the
"Q [A^-1]" column once the image decodes — therefore panics for every key
list instead of returning a recoverable per-file error. -/
theorem claim_C8 (hdul : Fits) (keys : List String)
    (hmiss : getValueRaw hdul "Sample Theta" = .ok none ∨
      getValueRaw hdul "Beamline Energy" = .ok none)
    (himg : ∃ r, get_image hdul = .ok (.ok r)) :
    getValue hdul "Q" = .panicked ∧ FitsLoader.to_polars hdul keys = .panicked := by
  have hq : getValue hdul "Q" = .panicked := by
    unfold getValue
    rw [if_pos rfl]
    rcases hmiss with h | h
    · rw [h]
      cases hbe : getValueRaw hdul "Beamline Energy" with
      | panicked => rfl
      | ok en =>
        cases en with
        | none => rfl
        | some e => rfl
    · cases hst : getValueRaw hdul "Sample Theta" with
      | panicked => rfl
      | ok th => rw [h]
  refine ⟨hq, ?_⟩
  obtain ⟨r, hr⟩ := himg
  obtain ⟨img, size⟩ := r
  unfold FitsLoader.to_polars
  cases hsv : (if keys.isEmpty then allCardSeries hdul else keySeries hdul keys) with
  | panicked => rfl
  | ok sv => rw [hr, hq]

/-- Witness for C8, at a concrete input: a file with an empty primary header
and a decodable image at HDU 2 panics on Q and in `to_polars`. -/
theorem claim_C8_witness :
    getValue [HDU.primary [], HDU.other, HDU.image (ImageData.I16 [[3]])] "Q" =
      .panicked ∧
    FitsLoader.to_polars [HDU.primary [], HDU.other,
      HDU.image (ImageData.I16 [[3]])] [] = .panicked :=
  claim_C8 [HDU.primary [], HDU.other, HDU.image (ImageData.I16 [[3]])] []
    (Or.inl rfl) ⟨([3], [1, 1]), rfl⟩

-- C9 ---------------------------------------------------------------------

/-- Columns whose single row makes `sameLen` hold. -/
theorem sameLen_of_one : ∀ l : List Series, (∀ s ∈ l, s.values.length = 1) →
    sameLen l = true := by
  intro l h
  cases l with
  | nil => rfl
  | cons c cst =>
    simp only [sameLen, List.all_eq_true]
    intro t ht
    rw [h t (List.mem_cons_of_mem c ht), h c (List.mem_cons_self c cst)]
    rfl

/-- C9: called with an empty key list, `FitsLoader::to_polars` emits one
column per header card, in card order, each valued
`card.value.as_float().unwrap_or(0.0)` — a card whose value is not
float-readable silently contributes 0.0, not a null and not an error —
followed by the image, shape and Q columns. -/
theorem claim_C9 (hdul : Fits) (cs : List Card) (img size : List ℕ) (q : ℝ)
    (hc : hdul[0]? = some (HDU.primary cs))
    (hi : get_image hdul = .ok (.ok (img, size)))
    (hq : getValue hdul "Q" = .ok (some q))
    (hnd : noDupNames (cs.map Card.keyword ++ ["Raw", "Raw Shape", "Q [A^-1]"])
      = true) :
    FitsLoader.to_polars hdul [] =
      .ok (.ok ⟨(cs.map fun c =>
          Series.mk c.keyword [RVal.num (c.value.asFloat.getD 0)]) ++
        [vec_series "Raw" img, vec_series "Raw Shape" size,
         Series.mk "Q [A^-1]" [RVal.num q]]⟩) := by
  have hsv : (if ([] : List String).isEmpty then allCardSeries hdul
      else keySeries hdul []) =
      .ok (cs.map fun c =>
        Series.mk c.keyword [RVal.num (c.value.asFloat.getD 0)]) := by
    simp only [List.isEmpty_nil, if_true]
    unfold allCardSeries get_all_cards
    rw [hc]
  have hnames : (((cs.map fun c =>
      Series.mk c.keyword [RVal.num (c.value.asFloat.getD 0)]) ++
      [vec_series "Raw" img, vec_series "Raw Shape" size,
       Series.mk "Q [A^-1]" [RVal.num q]]).map Series.name) =
      cs.map Card.keyword ++ ["Raw", "Raw Shape", "Q [A^-1]"] := by
    simp [vec_series, List.map_map, Function.comp]
  have hlen : sameLen ((cs.map fun c =>
      Series.mk c.keyword [RVal.num (c.value.asFloat.getD 0)]) ++
      [vec_series "Raw" img, vec_series "Raw Shape" size,
       Series.mk "Q [A^-1]" [RVal.num q]]) = true := by
    apply sameLen_of_one
    intro s hs
    rcases List.mem_append.mp hs with h1 | h2
    · obtain ⟨c, -, rfl⟩ := List.mem_map.mp h1
      rfl
    · simp only [vec_series, List.mem_cons, List.not_mem_nil, or_false] at h2
      rcases h2 with rfl | rfl | rfl <;> rfl
  unfold FitsLoader.to_polars
  rw [hsv, hi, hq]
  simp only [DataFrame.new, hnames, hnd, hlen, Bool.and_self, if_true]

/-- Witness for C9, at a concrete input: a header with two float cards and
one non-float card ("DATE") yields one column per card, "DATE" valued 0.0. -/
theorem claim_C9_witness :
    FitsLoader.to_polars
      [HDU.primary [⟨"Sample Theta", CardValue.float 1⟩,
                    ⟨"Beamline Energy", CardValue.float 500⟩,
                    ⟨"DATE", CardValue.other "2024-01-01"⟩],
       HDU.other, HDU.image (ImageData.I16 [[3]])] [] =
      .ok (.ok ⟨(([⟨"Sample Theta", CardValue.float 1⟩,
                   ⟨"Beamline Energy", CardValue.float 500⟩,
                   ⟨"DATE", CardValue.other "2024-01-01"⟩] : List Card).map fun c =>
          Series.mk c.keyword [RVal.num (c.value.asFloat.getD 0)]) ++
        [vec_series "Raw" [3], vec_series "Raw Shape" [1, 1],
         Series.mk "Q [A^-1]" [RVal.num (qFromThetaEnergy 1 500)]]⟩) :=
  claim_C9
    [HDU.primary [⟨"Sample Theta", CardValue.float 1⟩,
                  ⟨"Beamline Energy", CardValue.float 500⟩,
                  ⟨"DATE", CardValue.other "2024-01-01"⟩],
     HDU.other, HDU.image (ImageData.I16 [[3]])]
    [⟨"Sample Theta", CardValue.float 1⟩,
     ⟨"Beamline Energy", CardValue.float 500⟩,
     ⟨"DATE", CardValue.other "2024-01-01"⟩]
    [3] [1, 1] (qFromThetaEnergy 1 500) rfl rfl rfl (by decide)

-- C10 --------------------------------------------------------------------

/-- C10: `simple_update` leaves the dataframe unchanged unless it appends —
an equal count of `.fits` entries returns `Ok` with the frame untouched, a
smaller count returns the out-of-sync error with the frame untouched, and
any call that returns a changed frame had strictly more `.fits` entries than
rows. -/
theorem claim_C10 (df : DataFrame) (entries : List DirEntry) :
    ((fitsEntries entries).length = df.height →
      simple_update df entries = .ok (.ok (), df)) ∧
    ((fitsEntries entries).length < df.height →
      simple_update df entries =
        .ok (.error "Files out of sync with loaded data, Restart", df)) ∧
    (∀ r df2, simple_update df entries = .ok (r, df2) → df2 ≠ df →
      df.height < (fitsEntries entries).length) := by
  refine ⟨?_, ?_, ?_⟩
  · intro h
    unfold simple_update
    rw [if_pos h]
  · intro h
    unfold simple_update
    rw [if_neg (Nat.ne_of_lt h), if_pos h]
  · intro r df2 hs hne
    by_cases h1 : (fitsEntries entries).length = df.height
    · unfold simple_update at hs
      rw [if_pos h1] at hs
      injection hs with h'
      injection h' with ha hb
      exact absurd hb.symm hne
    · by_cases h2 : (fitsEntries entries).length < df.height
      · unfold simple_update at hs
        rw [if_neg h1, if_pos h2] at hs
        injection hs with h'
        injection h' with ha hb
        exact absurd hb.symm hne
      · omega

/-- Witness for C10, at concrete inputs: a one-row frame with one `.fits`
entry in the directory is returned unchanged, and with none it is the
out-of-sync error, also unchanged. -/
theorem claim_C10_witness :
    simple_update ⟨[Series.mk "a" [RVal.num 1]]⟩ [⟨some "fits", .ok []⟩] =
      .ok (.ok (), ⟨[Series.mk "a" [RVal.num 1]]⟩) ∧
    simple_update ⟨[Series.mk "a" [RVal.num 1]]⟩ [⟨some "txt", .ok []⟩] =
      .ok (.error "Files out of sync with loaded data, Restart",
        ⟨[Series.mk "a" [RVal.num 1]]⟩) :=
  ⟨(claim_C10 ⟨[Series.mk "a" [RVal.num 1]]⟩ [⟨some "fits", .ok []⟩]).1 rfl,
   (claim_C10 ⟨[Series.mk "a" [RVal.num 1]]⟩ [⟨some "txt", .ok []⟩]).2.1
     (by decide)⟩

-- C4 ---------------------------------------------------------------------

/-- The molar Planck constant is nonzero. -/
theorem molar_ne : MOLAR_PLANCK_CONSTANT ≠ 0 := by
  unfold MOLAR_PLANCK_CONSTANT; norm_num

/-- The Planck constant is nonzero. -/
theorem planck_ne : PLANCK_CONSTANT ≠ 0 := by
  unfold PLANCK_CONSTANT; norm_num

/-- The speed of light is nonzero. -/
theorem light_ne : SPEED_OF_LIGHT_IN_VACUUM ≠ 0 := by
  unfold SPEED_OF_LIGHT_IN_VACUUM; norm_num

/-- The code's Q and the spec's Q differ exactly by the factor
h / (h N_A) = 1 / N_A, because the code reads `MOLAR_PLANCK_CONSTANT` where
the spec's formula names the Planck constant. -/
theorem q_ratio (θ en : ℝ) : qFromThetaEnergy θ en =
    (PLANCK_CONSTANT / MOLAR_PLANCK_CONSTANT) * qSpecFormula θ en := by
  by_cases hen : en = 0
  · subst hen
    simp [qFromThetaEnergy, qSpecFormula, div_zero]
  · unfold qFromThetaEnergy qSpecFormula
    have h10 : (1e10 : ℝ) ≠ 0 := by norm_num
    field_simp [hen, molar_ne, planck_ne, light_ne]
    ring

/-- C4 counterexample: at θ = 0.5 degrees and E = 500, the Q the code
computes is not within 1e-9 relative tolerance of the spec's formula with
the Planck constant — the code uses the molar Planck constant h·N_A, so its
Q is smaller by the factor N_A ≈ 6.022e23, about 24 orders of magnitude
beyond the claimed tolerance (and far beyond any f64 rounding, so modelling
the doubles by reals is conservative here). -/
theorem claim_C4_counterexample :
    ¬ |qFromThetaEnergy 0.5 500 - qSpecFormula 0.5 500| ≤
      1e-9 * |qSpecFormula 0.5 500| := by
  intro hle
  have hs : 0 < Real.sin (toRadians 0.5) := by
    unfold toRadians
    apply Real.sin_pos_of_pos_of_lt_pi
    · have := Real.pi_pos; nlinarith
    · have := Real.pi_pos; nlinarith
  have hqs : 0 < qSpecFormula 0.5 500 := by
    unfold qSpecFormula
    apply div_pos
    · exact mul_pos (mul_pos (by norm_num) Real.pi_pos) hs
    · unfold PLANCK_CONSTANT SPEED_OF_LIGHT_IN_VACUUM
      norm_num
  have hr : PLANCK_CONSTANT / MOLAR_PLANCK_CONSTANT < 1 / 2 := by
    unfold PLANCK_CONSTANT MOLAR_PLANCK_CONSTANT
    rw [div_lt_iff₀ (by norm_num)]
    norm_num
  have hr0 : 0 < PLANCK_CONSTANT / MOLAR_PLANCK_CONSTANT := by
    unfold PLANCK_CONSTANT MOLAR_PLANCK_CONSTANT
    positivity
  rw [q_ratio] at hle
  have hneg : (PLANCK_CONSTANT / MOLAR_PLANCK_CONSTANT) * qSpecFormula 0.5 500 -
      qSpecFormula 0.5 500 < 0 := by nlinarith
  rw [abs_of_neg hneg, abs_of_pos hqs] at hle
  nlinarith

/-- C4 as amended: for a file whose header holds "Sample Theta" θ and
"Beamline Energy" E, `get_value("Q")` returns
`4π · sin(θ_rad) / λ` with `λ = 1e10 · M · c / E` where M is the *molar*
Planck constant (h·N_A), not the Planck constant h — so the computed Q is
exactly h/M = 1/N_A times the value of the spec's stated formula. -/
theorem claim_C4_amended (hdul : Fits) (θ en : ℝ)
    (ht : getValueRaw hdul "Sample Theta" = .ok (some θ))
    (he : getValueRaw hdul "Beamline Energy" = .ok (some en)) :
    getValue hdul "Q" = .ok (some (qFromThetaEnergy θ en)) ∧
    qFromThetaEnergy θ en =
      (PLANCK_CONSTANT / MOLAR_PLANCK_CONSTANT) * qSpecFormula θ en := by
  refine ⟨?_, q_ratio θ en⟩
  unfold getValue
  rw [if_pos rfl, ht, he]

/-- Witness for C4 as amended, at a concrete input. -/
theorem claim_C4_witness :
    getValue [HDU.primary [⟨"Sample Theta", CardValue.float 0.5⟩,
      ⟨"Beamline Energy", CardValue.float 500⟩]] "Q" =
      .ok (some (qFromThetaEnergy 0.5 500)) ∧
    qFromThetaEnergy 0.5 500 =
      (PLANCK_CONSTANT / MOLAR_PLANCK_CONSTANT) * qSpecFormula 0.5 500 :=
  claim_C4_amended
    [HDU.primary [⟨"Sample Theta", CardValue.float 0.5⟩,
      ⟨"Beamline Energy", CardValue.float 500⟩]] 0.5 500 rfl rfl

end PyrefCcd
